import Mathlib

/-!
Shallow embedding of the Reddit-VAR-Sentiment scraping pipeline
(`src/reddit.py`, class `RedditScraper`, helped by `src/utils.py`).

Modelling conventions:
* Python exceptions become `Except PyErr`; a method that mutates `self` and can
  raise becomes a function `ScraperState → ScraperState × Except PyErr α`
  (on an exception the object keeps whatever state it had when the raise
  happened, which the returned first component records).
* The PRAW network client is an external collaborator.  It is modelled as an
  opaque function `Fetcher` passed to the scraping operations; it receives the
  same arguments Python forwards to `subreddit.search` and returns the already
  materialised listing of posts, each post handle carrying the comment forest
  that `post.comments.list()` (after `replace_more(limit=0)`) would yield.
* Python `dict` (insertion ordered) becomes an association list; updating an
  existing key keeps its position, a fresh key is appended at the end.
* `datetime.datetime.fromtimestamp` is an injective re-presentation of the
  numeric timestamp; dates are carried as the underlying timestamp (`Int`).
* `upvote_ratio` is a Python float carried opaquely through the pipeline (no
  arithmetic is ever performed on it); it is modelled as `Rat`.
* `utils._type_defence(obj, exp_type, name)` raises `TypeError` when an
  argument has the wrong dynamic type; in the typed embedding every call site
  passes an argument of the expected type, so these defences never fire and
  are not modelled further.
-/

/-- A pandas cell value: strings, integers, opaque floats and nulls (None/NaN). -/
inductive Value where
  | vstr : String → Value
  | vint : Int → Value
  | vrat : Rat → Value
  | vnull : Value
deriving DecidableEq, Repr

/-- One pandas row, keyed by column name (columns are in frame order). -/
abbrev NamedRow := List (String × Value)

/-- A pandas DataFrame, viewed as its ordered list of rows. -/
abbrev Table := List NamedRow

/-- The Python exceptions the pipeline raises itself (the spec's
InvalidArgument / InvalidState taxonomy). -/
inductive PyErr where
  | valueError : String → PyErr
  | userWarning : String → PyErr
deriving DecidableEq, Repr

/-- Python dict lookup on an association list (first binding wins; Python
dicts have at most one binding per key). -/
def findAssoc {β : Type} : List (String × β) → String → Option β
  | [], _ => none
  | (k, v) :: rest, k' => if k = k' then some v else findAssoc rest k'

/-- Python dict assignment `d[k] = v`: replaces the value of an existing key
in place, otherwise appends the new binding (insertion order). -/
def updAssoc {β : Type} : List (String × β) → String → β → List (String × β)
  | [], k, v => [(k, v)]
  | (k', v') :: rest, k, v =>
      if k' = k then (k, v) :: rest else (k', v') :: updAssoc rest k v

/-- Python slice `xs[:k]` for an `int` bound `k` (negative bounds count from
the end). -/
def pySliceTo {α : Type} (k : Int) (xs : List α) : List α :=
  xs.take (if 0 ≤ k then k.toNat else xs.length - (-k).toNat)

/-- A raw comment record as produced by the PRAW client: `author` is `none`
when the account is deleted/unavailable. -/
structure FetchedComment where
  id : String
  body : String
  author : Option String
  score : Int
  created : Int
deriving DecidableEq, Repr

/-- A raw post record as produced by the PRAW client, carrying the comment
listing that `post.comments.list()` would return after
`replace_more(limit=0)`. -/
structure FetchedPost where
  id : String
  title : String
  author : Option String
  author_flair_text : Option String
  score : Int
  upvote_ratio : Rat
  created : Int
  comments : List FetchedComment
deriving DecidableEq, Repr

/-- The external network client: receives subreddit, query, post limit, sort
and time filter exactly as `sub.search(...)` does. -/
abbrev Fetcher := String → String → Int → String → String → List FetchedPost

/-- The expression `x.author.name if x.author else "unknown_author"` used for
both posts and comments. -/
def authorName : Option String → String
  | some n => n
  | none => "unknown_author"

/-- The nested `"comments"` parallel-array container of a bundle. -/
structure CommentCols where
  post_id : List String
  comment_id : List String
  comment_content : List String
  comment_author : List String
  comment_score : List Int
  comment_date : List Int
deriving DecidableEq, Repr

/-- The `all_posts` parallel-array bundle built by `scrape_subreddit`. -/
structure PostBundle where
  post_id : List String
  title : List String
  author : List String
  author_flair : List (Option String)
  score : List Int
  upvote_ratio : List Rat
  post_date : List Int
  comments : CommentCols
deriving DecidableEq, Repr

/-- The freshly initialised `all_posts` dict of `scrape_subreddit`. -/
def emptyBundle : PostBundle :=
  { post_id := [], title := [], author := [], author_flair := [], score := [],
    upvote_ratio := [], post_date := [],
    comments := { post_id := [], comment_id := [], comment_content := [],
                  comment_author := [], comment_score := [], comment_date := [] } }

/-- `ScrapeStore`: the nested dict community → query → bundle
(`self.scraped_data`). -/
abbrev Store := List (String × List (String × PostBundle))

/-- The mutable attributes of a `RedditScraper` object that the pipeline under
specification reads or writes (credentials and the PRAW handle are opaque
construction-time data and are carried by the `Fetcher` instead). -/
structure ScraperState where
  scraped_data : Store
  posts_df : Option Table
  comments_df : Option Table
  joined_data_df : Option Table
deriving DecidableEq, Repr

/-- The state right after `RedditScraper.__init__`. -/
def initState : ScraperState :=
  { scraped_data := [], posts_df := none, comments_df := none,
    joined_data_df := none }

/-- One iteration of the comment loop of `_obtain_comments`: appends the
comment's fields (with the unknown-author substitution) to every parallel
array of `current_comments`. -/
def appendComment (pid : String) (cur : CommentCols) (c : FetchedComment) :
    CommentCols :=
  { post_id := cur.post_id ++ [pid],
    comment_id := cur.comment_id ++ [c.id],
    comment_content := cur.comment_content ++ [c.body],
    comment_author := cur.comment_author ++ [authorName c.author],
    comment_score := cur.comment_score ++ [c.score],
    comment_date := cur.comment_date ++ [c.created] }

/-- `RedditScraper._obtain_comments`: iterates over
`post.comments.list()[:comment_limit]` and appends each comment's fields to
`current_comments`. -/
def obtain_comments (post : FetchedPost) (current_comments : CommentCols)
    (comment_limit : Int) : CommentCols :=
  (pySliceTo comment_limit post.comments).foldl (appendComment post.id)
    current_comments

/-- One iteration of the post loop of `scrape_subreddit`: appends the post's
scalar fields and, when `get_comments` is set, the post's comments. -/
def scrapePostStep (get_comments : Bool) (comment_limit : Int)
    (acc : PostBundle) (post : FetchedPost) : PostBundle :=
  let acc1 : PostBundle :=
    { acc with
      post_id := acc.post_id ++ [post.id],
      title := acc.title ++ [post.title],
      author := acc.author ++ [authorName post.author],
      author_flair := acc.author_flair ++ [post.author_flair_text],
      score := acc.score ++ [post.score],
      upvote_ratio := acc.upvote_ratio ++ [post.upvote_ratio],
      post_date := acc.post_date ++ [post.created] }
  if get_comments then
    { acc1 with comments := obtain_comments post acc1.comments comment_limit }
  else acc1

/-- The bundle built by the post loop of `scrape_subreddit` from the search
results. -/
def buildBundle (results : List FetchedPost) (get_comments : Bool)
    (comment_limit : Int) : PostBundle :=
  results.foldl (scrapePostStep get_comments comment_limit) emptyBundle

/-- The write `self.scraped_data[subreddit][search] = all_posts` guarded by
`try/except KeyError` (a missing subreddit key first gets an empty inner
dict). -/
def storeInsert (store : Store) (subreddit search : String) (b : PostBundle) :
    Store :=
  match findAssoc store subreddit with
  | some inner => updAssoc store subreddit (updAssoc inner search b)
  | none => store ++ [(subreddit, [(search, b)])]

def valid_sorts : List String := ["relevance", "hot", "top", "new", "comments"]

def valid_time_filters : List String := ["all", "day", "hour", "month", "week", "year"]

/-- `RedditScraper.scrape_subreddit`: validates the enumerated parameters,
fetches the listing, shapes it into a bundle, writes the bundle into
`self.scraped_data[subreddit][search]` and returns `{subreddit: bundle}`. -/
def scrape_subreddit (st : ScraperState) (fetch : Fetcher)
    (subreddit search : String) (post_limit : Int := 50)
    (sort : String := "top") (time_filter : String := "all")
    (get_comments : Bool := true) (comment_limit : Int := 10) :
    ScraperState × Except PyErr (List (String × PostBundle)) :=
  if sort ∉ valid_sorts then
    (st, .error (.valueError ("Sort must be one of " ++ toString valid_sorts)))
  else if time_filter ∉ valid_time_filters then
    (st, .error (.valueError
      ("Time filter must be one of " ++ toString valid_time_filters)))
  else
    let results := fetch subreddit search post_limit sort time_filter
    let all_posts := buildBundle results get_comments comment_limit
    ({ st with scraped_data := storeInsert st.scraped_data subreddit search all_posts },
     .ok [(subreddit, all_posts)])

/-- The loop body of `multi_scrape`: scrape each subreddit in turn with the
shared parameters, accumulating `combined_data[sub] = data[sub]`; an exception
aborts the remaining iterations. -/
def multi_scrape_go (fetch : Fetcher) (search : String) (post_limit : Int)
    (sort time_filter : String) (get_comments : Bool) (comment_limit : Int) :
    ScraperState → List String → List (String × PostBundle) →
    ScraperState × Except PyErr (List (String × PostBundle))
  | st, [], combined => (st, .ok combined)
  | st, sub :: rest, combined =>
      match scrape_subreddit st fetch sub search post_limit sort time_filter
          get_comments comment_limit with
      | (st', .error e) => (st', .error e)
      | (st', .ok data) =>
          multi_scrape_go fetch search post_limit sort time_filter get_comments
            comment_limit st' rest
            (updAssoc combined sub ((findAssoc data sub).getD emptyBundle))

/-- `RedditScraper.multi_scrape`: rejects an empty subreddit list, otherwise
scrapes every listed subreddit with identical remaining parameters. -/
def multi_scrape (st : ScraperState) (fetch : Fetcher)
    (subreddits : List String) (search : String) (post_limit : Int := 50)
    (sort : String := "top") (time_filter : String := "all")
    (get_comments : Bool := true) (comment_limit : Int := 10) :
    ScraperState × Except PyErr (List (String × PostBundle)) :=
  if subreddits.length ≤ 0 then
    (st, .error (.userWarning "Can not scrape data as no subreddit was specified."))
  else
    multi_scrape_go fetch search post_limit sort time_filter get_comments
      comment_limit st subreddits []

/-- The pandas check that every column of a dict-of-lists DataFrame has the
same length, for the nested comment container (`pd.DataFrame(comments)`
raises a ValueError otherwise). -/
def commentLensOk (c : CommentCols) : Bool :=
  (c.comment_id.length == c.post_id.length) &&
  (c.comment_content.length == c.post_id.length) &&
  (c.comment_author.length == c.post_id.length) &&
  (c.comment_score.length == c.post_id.length) &&
  (c.comment_date.length == c.post_id.length)

/-- The same pandas length check for the post-level arrays (the added
`subreddit` / `search_query` columns are built with length
`len(bundle.post_id)`, so they agree with `post_id` by construction). -/
def postLensOk (b : PostBundle) : Bool :=
  (b.title.length == b.post_id.length) &&
  (b.author.length == b.post_id.length) &&
  (b.author_flair.length == b.post_id.length) &&
  (b.score.length == b.post_id.length) &&
  (b.upvote_ratio.length == b.post_id.length) &&
  (b.post_date.length == b.post_id.length)

/-- A nullable string cell (`author_flair_text` may be Python `None`). -/
def optStrVal : Option String → Value
  | some s => .vstr s
  | none => .vnull

/-- One row of the posts DataFrame, columns in the dict order of the bundle
after `subreddit` / `search_query` are added and `comments` is popped. -/
def mkPostRow (subr qry pid ttl auth : String) (flair : Option String)
    (sc : Int) (ur : Rat) (dt : Int) : NamedRow :=
  [("post_id", .vstr pid), ("title", .vstr ttl), ("author", .vstr auth),
   ("author_flair", optStrVal flair), ("score", .vint sc),
   ("upvote_ratio", .vrat ur), ("post_date", .vint dt),
   ("subreddit", .vstr subr), ("search_query", .vstr qry)]

/-- One row of the comments DataFrame (the code never adds provenance columns
to the nested comment container, so a comment row has exactly these six
columns). -/
def mkCommentRow (pid cid body cauth : String) (csc cdt : Int) : NamedRow :=
  [("post_id", .vstr pid), ("comment_id", .vstr cid),
   ("comment_content", .vstr body), ("comment_author", .vstr cauth),
   ("comment_score", .vint csc), ("comment_date", .vint cdt)]

/-- Row view of the post-level parallel arrays (`pd.DataFrame` of the bundle
dict); only applied under `postLensOk`, where all seven lists run out
together. -/
def postRowsZip (subr qry : String) :
    List String → List String → List String → List (Option String) →
    List Int → List Rat → List Int → Table
  | pid :: ps, t :: ts, a :: aus, f :: fs, s :: ss, u :: us, d :: ds =>
      mkPostRow subr qry pid t a f s u d :: postRowsZip subr qry ps ts aus fs ss us ds
  | _, _, _, _, _, _, _ => []

/-- Row view of the comment parallel arrays (`pd.DataFrame` of the comment
dict); only applied under `commentLensOk`. -/
def commentRowsZip :
    List String → List String → List String → List String →
    List Int → List Int → Table
  | p :: ps, i :: is, c :: cs, a :: aus, s :: ss, d :: ds =>
      mkCommentRow p i c a s d :: commentRowsZip ps is cs aus ss ds
  | _, _, _, _, _, _ => []

/-- The post rows one bundle contributes to the posts DataFrame. -/
def bundlePostRows (subr qry : String) (b : PostBundle) : Table :=
  postRowsZip subr qry b.post_id b.title b.author b.author_flair b.score
    b.upvote_ratio b.post_date

/-- The comment rows one bundle contributes to the comments DataFrame. -/
def bundleCommentRows (c : CommentCols) : Table :=
  commentRowsZip c.post_id c.comment_id c.comment_content c.comment_author
    c.comment_score c.comment_date

/-- The inner query loop of `semi_format_to_pandas` for one community: for
each bundle, builds the two DataFrames (comments first, as in the code) and
concatenates them onto the accumulated tables. -/
def flattenInner (subr : String) :
    List (String × PostBundle) → Table → Table → Except PyErr (Table × Table)
  | [], posts, comments => .ok (posts, comments)
  | (qry, b) :: rest, posts, comments =>
      if !commentLensOk b.comments then
        .error (.valueError "All arrays must be of the same length")
      else if !postLensOk b then
        .error (.valueError "All arrays must be of the same length")
      else
        flattenInner subr rest (posts ++ bundlePostRows subr qry b)
          (comments ++ bundleCommentRows b.comments)

/-- The outer community loop of `semi_format_to_pandas`. -/
def flattenStore : Store → Table → Table → Except PyErr (Table × Table)
  | [], posts, comments => .ok (posts, comments)
  | (subr, inner) :: rest, posts, comments =>
      match flattenInner subr inner posts comments with
      | .error e => .error e
      | .ok (p, c) => flattenStore rest p c

/-- The value computed by `semi_format_to_pandas` from the (deep copy of the)
store: rejects an empty store, otherwise runs the flattening loops starting
from two empty DataFrames. -/
def semiResult (store : Store) : Except PyErr (Table × Table) :=
  if store.isEmpty then .error (.userWarning "No data has been scraped.")
  else flattenStore store [] []

/-- `RedditScraper.semi_format_to_pandas`: takes a deep copy of
`self.scraped_data` (value semantics here, so the per-bundle mutations of the
loop never touch `scraped_data`), rejects an empty store, flattens every
bundle into the posts/comments tables and stores them on the object (on an
exception the object attributes are left untouched). -/
def semi_format_to_pandas (st : ScraperState) :
    ScraperState × Except PyErr (Table × Table) :=
  match semiResult st.scraped_data with
  | .error e => (st, .error e)
  | .ok (posts_df, comments_df) =>
      ({ st with posts_df := some posts_df, comments_df := some comments_df },
       .ok (posts_df, comments_df))

/-- The pandas merge key of a row (its `post_id` cell). -/
def rowKey (r : NamedRow) : Value := (findAssoc r "post_id").getD .vnull

/-- The right frame's columns minus the merge key, as pandas drops the
duplicate `post_id` column from the right side of the merge. -/
def stripKey (r : NamedRow) : NamedRow := r.filter (fun kv => kv.1 != "post_id")

def postAttrCols : List String :=
  ["title", "author", "author_flair", "score", "upvote_ratio", "post_date",
   "subreddit", "search_query"]

/-- The NaN-filled left-frame cells of a right row with no key match. -/
def nullPostCells : NamedRow := postAttrCols.map (fun c => (c, Value.vnull))

/-- Pandas `posts.merge(comments, how="right", on="post_id")`: row order
follows the right (comments) frame, each right row paired with its left
matches in left order, or with NaN left cells when no left row shares its
key; columns are the left columns followed by the right columns minus the
key. -/
def mergeRightOn (posts comments : Table) : Table :=
  comments.flatMap (fun c =>
    let ms := posts.filter (fun p => decide (rowKey p = rowKey c))
    match ms with
    | [] => [("post_id", rowKey c) :: (nullPostCells ++ stripKey c)]
    | _ => ms.map (fun p => p ++ stripKey c))

/-- `RedditScraper.full_format_to_pandas`: flattens, casts both `post_id`
columns to a common comparable dtype (`astype("object")`, a no-op on the cell
values themselves, modelled by comparing `Value`s), right-joins the comments
onto the posts and stores the joined table. -/
def full_format_to_pandas (st : ScraperState) :
    ScraperState × Except PyErr Table :=
  match semi_format_to_pandas st with
  | (st1, .error e) => (st1, .error e)
  | (st1, .ok (all_posts, all_comments)) =>
      let joined := mergeRightOn all_posts all_comments
      ({ st1 with joined_data_df := some joined }, .ok joined)

/-- Column projection `df.col` for one row (attribute access on the joined
DataFrame). -/
def getCol (r : NamedRow) (c : String) : Value := (findAssoc r c).getD .vnull

/-- The column rename `comment_author → source`, `author → target` applied to
one row; values are untouched. -/
def renameSourceTarget (r : NamedRow) : NamedRow :=
  r.map (fun kv =>
    (if kv.1 = "comment_author" then "source"
     else if kv.1 = "author" then "target" else kv.1, kv.2))

/-- The node and edge tables derived from a joined table:
`possible_users = list(df.author) + list(df.comment_author)` deduplicated via
`set` (Python set order is unspecified; `dedup` picks a representative
order), and the renamed copy of the joined table as edges. -/
def nodesEdgesOf (jd : Table) : Table × Table :=
  let possible_users :=
    jd.map (fun r => getCol r "author") ++ jd.map (fun r => getCol r "comment_author")
  let nodes := possible_users.dedup.map (fun v => [("id", v)])
  let edges := jd.map renameSourceTarget
  (nodes, edges)

/-- `RedditScraper.create_nodes_and_edges`: triggers `full_format_to_pandas`
when no joined table exists yet, then derives nodes and edges from a deep
copy of the joined table (the rename never touches `self.joined_data_df`). -/
def create_nodes_and_edges (st : ScraperState) :
    ScraperState × Except PyErr (Table × Table) :=
  match st.joined_data_df with
  | none =>
      match full_format_to_pandas st with
      | (st1, .error e) => (st1, .error e)
      | (st1, .ok jd) => (st1, .ok (nodesEdgesOf jd))
  | some jd => (st, .ok (nodesEdgesOf jd))

/-! ### Dict lemmas and the store view -/

/-- The entry stored for `(sub, qry)` in a `ScrapeStore`. -/
def storeGet (store : Store) (sub qry : String) : Option PostBundle :=
  match findAssoc store sub with
  | some inner => findAssoc inner qry
  | none => none

theorem findAssoc_updAssoc_self {β : Type} (l : List (String × β)) (k : String)
    (v : β) : findAssoc (updAssoc l k v) k = some v := by
  induction l with
  | nil => simp [updAssoc, findAssoc]
  | cons hd tl ih =>
      obtain ⟨k', v'⟩ := hd
      by_cases h : k' = k
      · simp [updAssoc, h, findAssoc]
      · simp [updAssoc, h, findAssoc, ih]

theorem findAssoc_updAssoc_ne {β : Type} (l : List (String × β)) (k k' : String)
    (v : β) (h : k ≠ k') : findAssoc (updAssoc l k v) k' = findAssoc l k' := by
  induction l with
  | nil => simp [updAssoc, findAssoc, h]
  | cons hd tl ih =>
      obtain ⟨k₀, v₀⟩ := hd
      by_cases h0 : k₀ = k
      · subst h0
        simp [updAssoc, findAssoc, h]
      · simp [updAssoc, h0, findAssoc, ih]

theorem findAssoc_append_of_some {β : Type} (l₁ l₂ : List (String × β))
    (k : String) (v : β) (h : findAssoc l₁ k = some v) :
    findAssoc (l₁ ++ l₂) k = some v := by
  induction l₁ with
  | nil => simp [findAssoc] at h
  | cons hd tl ih =>
      obtain ⟨k₀, v₀⟩ := hd
      by_cases h0 : k₀ = k
      · simp [findAssoc, h0] at h ⊢
        exact h
      · simp [findAssoc, h0] at h ⊢
        exact ih h

theorem findAssoc_append_of_none {β : Type} (l₁ l₂ : List (String × β))
    (k : String) (h : findAssoc l₁ k = none) :
    findAssoc (l₁ ++ l₂) k = findAssoc l₂ k := by
  induction l₁ with
  | nil => simp [findAssoc]
  | cons hd tl ih =>
      obtain ⟨k₀, v₀⟩ := hd
      by_cases h0 : k₀ = k
      · simp [findAssoc, h0] at h
      · simp [findAssoc, h0] at h ⊢
        exact ih h

theorem storeGet_insert_self (store : Store) (sub qry : String) (b : PostBundle) :
    storeGet (storeInsert store sub qry b) sub qry = some b := by
  unfold storeInsert
  cases hf : findAssoc store sub with
  | some inner =>
      simp [storeGet, findAssoc_updAssoc_self, findAssoc_updAssoc_self inner]
  | none =>
      simp [storeGet, findAssoc_append_of_none store _ sub hf, findAssoc]

theorem storeGet_insert_ne (store : Store) (sub qry : String) (b : PostBundle)
    (sub' qry' : String) (h : ¬(sub' = sub ∧ qry' = qry)) :
    storeGet (storeInsert store sub qry b) sub' qry' = storeGet store sub' qry' := by
  unfold storeInsert
  cases hf : findAssoc store sub with
  | some inner =>
      by_cases hsub : sub = sub'
      · subst hsub
        have hq : qry ≠ qry' := fun hq => h ⟨rfl, hq.symm⟩
        simp [storeGet, findAssoc_updAssoc_self, hf,
          findAssoc_updAssoc_ne inner qry qry' b hq]
      · simp [storeGet, findAssoc_updAssoc_ne store sub sub' _ hsub]
  | none =>
      by_cases hsub : sub = sub'
      · subst hsub
        simp [storeGet, findAssoc_append_of_none store _ sub hf, hf, findAssoc]
        have hq : ¬(qry = qry') := fun hq => h ⟨rfl, hq.symm⟩
        simp [hq]
      · cases hf' : findAssoc store sub' with
        | some inner' =>
            simp [storeGet, findAssoc_append_of_some store _ sub' inner' hf', hf']
        | none =>
            simp [storeGet, findAssoc_append_of_none store _ sub' hf', hf',
              findAssoc, hsub]

/-- C2: scraping a `(community, query)` pair writes that entry and leaves every
other entry of the `ScrapeStore` unchanged. -/
theorem C2_scrape_overwrites_only_target (st : ScraperState) (fetch : Fetcher)
    (sub search : String) (post_limit : Int) (sort time_filter : String)
    (get_comments : Bool) (comment_limit : Int) (sub' search' : String)
    (hs : sort ∈ valid_sorts) (ht : time_filter ∈ valid_time_filters)
    (hne : ¬(sub' = sub ∧ search' = search)) :
    storeGet (scrape_subreddit st fetch sub search post_limit sort time_filter
        get_comments comment_limit).1.scraped_data sub' search'
      = storeGet st.scraped_data sub' search' ∧
    storeGet (scrape_subreddit st fetch sub search post_limit sort time_filter
        get_comments comment_limit).1.scraped_data sub search
      = some (buildBundle (fetch sub search post_limit sort time_filter)
          get_comments comment_limit) := by
  unfold scrape_subreddit
  simp only [hs, ht, not_true_eq_false, if_false]
  exact ⟨storeGet_insert_ne _ _ _ _ _ _ hne, storeGet_insert_self _ _ _ _⟩

/-- Witness for C2 at a concrete store and fetcher. -/
theorem C2_witness :
    storeGet (scrape_subreddit initState (fun _ _ _ _ _ => []) "s" "q1" 50 "top"
        "all" true 10).1.scraped_data "s" "q2"
      = storeGet initState.scraped_data "s" "q2" ∧
    storeGet (scrape_subreddit initState (fun _ _ _ _ _ => []) "s" "q1" 50 "top"
        "all" true 10).1.scraped_data "s" "q1"
      = some (buildBundle [] true 10) :=
  C2_scrape_overwrites_only_target initState (fun _ _ _ _ _ => []) "s" "q1" 50
    "top" "all" true 10 "s" "q2" (by decide) (by decide) (by decide)

/-- C3: an out-of-enumeration `sort` or `time_filter` makes `scrape_subreddit`
raise a ValueError (the InvalidArgument taxon) with the object state exactly
as before, for every possible fetcher (so before any network interaction). -/
theorem C3_invalid_enum_is_atomic (st : ScraperState) (fetch : Fetcher)
    (sub search : String) (post_limit : Int) (sort time_filter : String)
    (get_comments : Bool) (comment_limit : Int)
    (h : sort ∉ valid_sorts ∨ time_filter ∉ valid_time_filters) :
    ∃ msg, scrape_subreddit st fetch sub search post_limit sort time_filter
        get_comments comment_limit = (st, .error (.valueError msg)) := by
  by_cases hs : sort ∈ valid_sorts
  · have ht : time_filter ∉ valid_time_filters := by tauto
    exact ⟨"Time filter must be one of " ++ toString valid_time_filters,
      by simp [scrape_subreddit, hs, ht]⟩
  · exact ⟨"Sort must be one of " ++ toString valid_sorts,
      by simp [scrape_subreddit, hs]⟩

/-- Witness for C3 with the spec example value `sort="bogus"`. -/
theorem C3_witness :
    ∃ msg, scrape_subreddit initState (fun _ _ _ _ _ => []) "a" "b" 1 "bogus"
        "all" true 1 = (initState, .error (.valueError msg)) :=
  C3_invalid_enum_is_atomic initState (fun _ _ _ _ _ => []) "a" "b" 1 "bogus"
    "all" true 1 (Or.inl (by decide))

/-- C8: `multi_scrape` on an empty community list fails with the empty-input
error, for every fetcher (no network call) and with the state handed back
untouched. -/
theorem C8_multi_scrape_empty_rejected (st : ScraperState) (fetch : Fetcher)
    (search : String) (post_limit : Int) (sort time_filter : String)
    (get_comments : Bool) (comment_limit : Int) :
    multi_scrape st fetch [] search post_limit sort time_filter get_comments
        comment_limit
      = (st, .error (.userWarning
          "Can not scrape data as no subreddit was specified.")) := by
  simp [multi_scrape]

/-! ### A concrete reachable pipeline run, used to instantiate theorems -/

/-- A concrete comment by `bob` on post `p1`. -/
def exComment : FetchedComment :=
  { id := "c1", body := "nice", author := some "bob", score := 1, created := 5 }

/-- A concrete post `p1` by `alice` carrying one comment. -/
def exPost1 : FetchedPost :=
  { id := "p1", title := "t", author := some "alice", author_flair_text := none,
    score := 2, upvote_ratio := 1, created := 9, comments := [exComment] }

/-- The same post `p1` as found by a second query, without comments. -/
def exPost2 : FetchedPost :=
  { id := "p1", title := "t", author := some "alice", author_flair_text := none,
    score := 2, upvote_ratio := 1, created := 9, comments := [] }

/-- A fetcher whose two queries overlap on post `p1` (the platform may return
the same post for several searches; the pipeline never deduplicates). -/
def exFetch : Fetcher := fun sub q _ _ _ =>
  if sub = "s" ∧ q = "q1" then [exPost1]
  else if sub = "s" ∧ q = "q2" then [exPost2]
  else []

/-- The object state after scraping `("s", "q1")` and then `("s", "q2")`. -/
def exState : ScraperState :=
  (scrape_subreddit
    (scrape_subreddit initState exFetch "s" "q1" 50 "top" "all" true 10).1
    exFetch "s" "q2" 50 "top" "all" true 10).1

/-! ### Flattening is a pure read of the store -/

theorem semi_snd (st : ScraperState) :
    (semi_format_to_pandas st).2 = semiResult st.scraped_data := by
  unfold semi_format_to_pandas
  split <;> simp [*]

theorem semi_fst_scraped (st : ScraperState) :
    (semi_format_to_pandas st).1.scraped_data = st.scraped_data := by
  unfold semi_format_to_pandas
  split <;> rfl

/-- C5: flattening twice with no intervening scrape returns the same result
both times (tables in the same row order, or the same error), and the
`ScrapeStore` is never modified by either call. -/
theorem C5_flatten_idempotent (st : ScraperState) (_h : st.scraped_data ≠ []) :
    (semi_format_to_pandas st).1.scraped_data = st.scraped_data ∧
    (semi_format_to_pandas (semi_format_to_pandas st).1).1.scraped_data
      = st.scraped_data ∧
    (semi_format_to_pandas (semi_format_to_pandas st).1).2
      = (semi_format_to_pandas st).2 := by
  refine ⟨semi_fst_scraped st, ?_, ?_⟩
  · rw [semi_fst_scraped, semi_fst_scraped]
  · rw [semi_snd, semi_snd, semi_fst_scraped]

/-- Witness for C5 at the concrete scraped state. -/
theorem C5_witness :
    (semi_format_to_pandas exState).1.scraped_data = exState.scraped_data ∧
    (semi_format_to_pandas (semi_format_to_pandas exState).1).1.scraped_data
      = exState.scraped_data ∧
    (semi_format_to_pandas (semi_format_to_pandas exState).1).2
      = (semi_format_to_pandas exState).2 :=
  C5_flatten_idempotent exState (by decide)

/-! ### What one scrape call puts into a bundle -/

/-- The comments taken across all posts of a listing, each paired with the id
of the post it was fetched under (the flattening order of the comment
loops). -/
def takenComments (results : List FetchedPost) (cl : Int) :
    List (String × FetchedComment) :=
  results.flatMap (fun p => (pySliceTo cl p.comments).map (fun c => (p.id, c)))

theorem obtain_comments_eq (post : FetchedPost) (cur : CommentCols) (cl : Int) :
    obtain_comments post cur cl =
      { post_id := cur.post_id ++ (pySliceTo cl post.comments).map (fun _ => post.id),
        comment_id := cur.comment_id ++ (pySliceTo cl post.comments).map FetchedComment.id,
        comment_content := cur.comment_content ++ (pySliceTo cl post.comments).map FetchedComment.body,
        comment_author := cur.comment_author ++ (pySliceTo cl post.comments).map (fun c => authorName c.author),
        comment_score := cur.comment_score ++ (pySliceTo cl post.comments).map FetchedComment.score,
        comment_date := cur.comment_date ++ (pySliceTo cl post.comments).map FetchedComment.created } := by
  unfold obtain_comments
  generalize pySliceTo cl post.comments = l
  induction l generalizing cur with
  | nil => simp
  | cons a l ih =>
      simp only [List.foldl_cons, List.map_cons]
      rw [ih]
      simp [appendComment, List.append_assoc]

theorem buildBundle_go (gc : Bool) (cl : Int) (results : List FetchedPost)
    (acc : PostBundle) :
    results.foldl (scrapePostStep gc cl) acc =
      { post_id := acc.post_id ++ results.map FetchedPost.id,
        title := acc.title ++ results.map FetchedPost.title,
        author := acc.author ++ results.map (fun p => authorName p.author),
        author_flair := acc.author_flair ++ results.map FetchedPost.author_flair_text,
        score := acc.score ++ results.map FetchedPost.score,
        upvote_ratio := acc.upvote_ratio ++ results.map FetchedPost.upvote_ratio,
        post_date := acc.post_date ++ results.map FetchedPost.created,
        comments :=
          if gc then
            { post_id := acc.comments.post_id ++ (takenComments results cl).map Prod.fst,
              comment_id := acc.comments.comment_id ++ (takenComments results cl).map (fun pc => pc.2.id),
              comment_content := acc.comments.comment_content ++ (takenComments results cl).map (fun pc => pc.2.body),
              comment_author := acc.comments.comment_author ++ (takenComments results cl).map (fun pc => authorName pc.2.author),
              comment_score := acc.comments.comment_score ++ (takenComments results cl).map (fun pc => pc.2.score),
              comment_date := acc.comments.comment_date ++ (takenComments results cl).map (fun pc => pc.2.created) }
          else acc.comments } := by
  induction results generalizing acc with
  | nil => cases gc <;> simp [takenComments]
  | cons p results ih =>
      simp only [List.foldl_cons]
      rw [ih]
      cases gc with
      | false => simp [scrapePostStep, takenComments, List.append_assoc]
      | true =>
          simp [scrapePostStep, obtain_comments_eq, takenComments,
            List.append_assoc, List.map_map, Function.comp]

theorem buildBundle_eq (results : List FetchedPost) (gc : Bool) (cl : Int) :
    buildBundle results gc cl =
      { post_id := results.map FetchedPost.id,
        title := results.map FetchedPost.title,
        author := results.map (fun p => authorName p.author),
        author_flair := results.map FetchedPost.author_flair_text,
        score := results.map FetchedPost.score,
        upvote_ratio := results.map FetchedPost.upvote_ratio,
        post_date := results.map FetchedPost.created,
        comments :=
          if gc then
            { post_id := (takenComments results cl).map Prod.fst,
              comment_id := (takenComments results cl).map (fun pc => pc.2.id),
              comment_content := (takenComments results cl).map (fun pc => pc.2.body),
              comment_author := (takenComments results cl).map (fun pc => authorName pc.2.author),
              comment_score := (takenComments results cl).map (fun pc => pc.2.score),
              comment_date := (takenComments results cl).map (fun pc => pc.2.created) }
          else emptyBundle.comments } := by
  unfold buildBundle
  rw [buildBundle_go]
  cases gc <;> simp [emptyBundle]

/-- A successful scrape call returns exactly the singleton dict
`{subreddit: bundle-built-from-the-listing}`. -/
theorem scrape_ok_bundle (st : ScraperState) (fetch : Fetcher)
    (sub search : String) (pl : Int) (sort tf : String) (gc : Bool) (cl : Int)
    (l : List (String × PostBundle))
    (hb : (scrape_subreddit st fetch sub search pl sort tf gc cl).2 = .ok l) :
    l = [(sub, buildBundle (fetch sub search pl sort tf) gc cl)] := by
  unfold scrape_subreddit at hb
  by_cases hs : sort ∈ valid_sorts
  · by_cases ht : tf ∈ valid_time_filters
    · simp only [hs, ht, not_true_eq_false, if_false] at hb
      exact ((Except.ok.injEq _ _).mp hb).symm
    · simp [hs, ht] at hb
  · simp [hs] at hb

/-- C4: the bundle written by a completed scrape records a missing/deleted
author as the literal sentinel `"unknown_author"` (which is not the empty
string), and records a present author name unchanged — for posts and, when
comments are fetched, for comments alike. -/
theorem C4_unknown_author_sentinel (st : ScraperState) (fetch : Fetcher)
    (sub search : String) (post_limit : Int) (sort time_filter : String)
    (get_comments : Bool) (comment_limit : Int) (b : PostBundle)
    (hb : (scrape_subreddit st fetch sub search post_limit sort time_filter
        get_comments comment_limit).2 = .ok [(sub, b)]) :
    (∀ i (hi : i < (fetch sub search post_limit sort time_filter).length),
      (((fetch sub search post_limit sort time_filter)[i]).author = none →
        b.author[i]? = some "unknown_author") ∧
      (∀ n, ((fetch sub search post_limit sort time_filter)[i]).author = some n →
        b.author[i]? = some n)) ∧
    (get_comments = true →
      ∀ j (hj : j < (takenComments (fetch sub search post_limit sort time_filter)
          comment_limit).length),
      (((takenComments (fetch sub search post_limit sort time_filter)
            comment_limit)[j]).2.author = none →
        b.comments.comment_author[j]? = some "unknown_author") ∧
      (∀ n, ((takenComments (fetch sub search post_limit sort time_filter)
            comment_limit)[j]).2.author = some n →
        b.comments.comment_author[j]? = some n)) ∧
    "unknown_author" ≠ "" := by
  have hl := scrape_ok_bundle st fetch sub search post_limit sort time_filter
    get_comments comment_limit _ hb
  have hbe : b = buildBundle (fetch sub search post_limit sort time_filter)
      get_comments comment_limit := by
    simpa using hl
  subst hbe
  rw [buildBundle_eq]
  refine ⟨?_, ?_, by decide⟩
  · intro i hi
    constructor
    · intro hnone
      simp [List.getElem?_map, List.getElem?_eq_getElem hi, hnone, authorName]
    · intro n hsome
      simp [List.getElem?_map, List.getElem?_eq_getElem hi, hsome, authorName]
  · intro hgc j hj
    subst hgc
    constructor
    · intro hnone
      simp [List.getElem?_map, List.getElem?_eq_getElem hj, hnone, authorName]
    · intro n hsome
      simp [List.getElem?_map, List.getElem?_eq_getElem hj, hsome, authorName]

/-- A deleted-author comment on a deleted-author post, used as witness data. -/
def delComment : FetchedComment :=
  { id := "c9", body := "x", author := none, score := 0, created := 1 }

/-- A post whose author account is deleted. -/
def delPost : FetchedPost :=
  { id := "p9", title := "u", author := none, author_flair_text := none,
    score := 0, upvote_ratio := 1, created := 2, comments := [delComment] }

/-- A fetcher returning only the deleted-author post. -/
def delFetch : Fetcher := fun _ _ _ _ _ => [delPost]

/-- Witness for C4 on a listing with a deleted post author and a deleted
comment author. -/
theorem C4_witness :
    (∀ i (hi : i < (delFetch "s" "q" 50 "top" "all").length),
      (((delFetch "s" "q" 50 "top" "all")[i]).author = none →
        (buildBundle (delFetch "s" "q" 50 "top" "all") true 10).author[i]?
          = some "unknown_author") ∧
      (∀ n, ((delFetch "s" "q" 50 "top" "all")[i]).author = some n →
        (buildBundle (delFetch "s" "q" 50 "top" "all") true 10).author[i]?
          = some n)) ∧
    (true = true →
      ∀ j (hj : j < (takenComments (delFetch "s" "q" 50 "top" "all") 10).length),
      (((takenComments (delFetch "s" "q" 50 "top" "all") 10)[j]).2.author = none →
        (buildBundle (delFetch "s" "q" 50 "top" "all") true 10).comments.comment_author[j]?
          = some "unknown_author") ∧
      (∀ n, ((takenComments (delFetch "s" "q" 50 "top" "all") 10)[j]).2.author = some n →
        (buildBundle (delFetch "s" "q" 50 "top" "all") true 10).comments.comment_author[j]?
          = some n)) ∧
    "unknown_author" ≠ "" :=
  C4_unknown_author_sentinel initState delFetch "s" "q" 50 "top" "all" true 10
    (buildBundle (delFetch "s" "q" 50 "top" "all") true 10) (by rfl)

/-- C7: every bundle a completed scrape call produces has equal-length
per-field arrays, an equal-length nested comment container, and comment
`post_id`s drawn from the bundle's own `post_id` array. -/
theorem C7_bundle_invariants (st : ScraperState) (fetch : Fetcher)
    (sub search : String) (post_limit : Int) (sort time_filter : String)
    (get_comments : Bool) (comment_limit : Int) (b : PostBundle)
    (hb : (scrape_subreddit st fetch sub search post_limit sort time_filter
        get_comments comment_limit).2 = .ok [(sub, b)]) :
    postLensOk b = true ∧ commentLensOk b.comments = true ∧
    ∀ pid ∈ b.comments.post_id, pid ∈ b.post_id := by
  have hl := scrape_ok_bundle st fetch sub search post_limit sort time_filter
    get_comments comment_limit _ hb
  have hbe : b = buildBundle (fetch sub search post_limit sort time_filter)
      get_comments comment_limit := by
    simpa using hl
  subst hbe
  rw [buildBundle_eq]
  cases get_comments with
  | false =>
      refine ⟨by simp [postLensOk], by simp [commentLensOk, emptyBundle], ?_⟩
      intro pid hpid
      exact absurd (show pid ∈ ([] : List String) from hpid) (by simp)
  | true =>
      refine ⟨by simp [postLensOk], by simp [commentLensOk], ?_⟩
      intro pid hpid
      have hpid' : pid ∈ (takenComments (fetch sub search post_limit sort
          time_filter) comment_limit).map Prod.fst := hpid
      show pid ∈ (fetch sub search post_limit sort time_filter).map FetchedPost.id
      simp only [List.mem_map] at hpid'
      obtain ⟨pc, hpc, hfst⟩ := hpid'
      simp only [takenComments, List.mem_flatMap, List.mem_map] at hpc
      obtain ⟨p, hp, c, _, hpair⟩ := hpc
      simp only [List.mem_map]
      exact ⟨p, hp, by rw [← hpair] at hfst; simpa using hfst⟩

/-- Witness for C7 at the concrete fetcher with one post and one comment. -/
theorem C7_witness :
    postLensOk (buildBundle (exFetch "s" "q1" 50 "top" "all") true 10) = true ∧
    commentLensOk (buildBundle (exFetch "s" "q1" 50 "top" "all") true 10).comments = true ∧
    ∀ pid ∈ (buildBundle (exFetch "s" "q1" 50 "top" "all") true 10).comments.post_id,
      pid ∈ (buildBundle (exFetch "s" "q1" 50 "top" "all") true 10).post_id :=
  C7_bundle_invariants initState exFetch "s" "q1" 50 "top" "all" true 10
    (buildBundle (exFetch "s" "q1" 50 "top" "all") true 10) (by rfl)

/-! ### Row counting through the flattening -/

/-- Total number of post records across all bundles of a store. -/
def totalPosts (store : Store) : Nat :=
  (store.map (fun si => (si.2.map (fun qb => qb.2.post_id.length)).sum)).sum

/-- Total number of comment records across all bundles of a store. -/
def totalComments (store : Store) : Nat :=
  (store.map (fun si => (si.2.map (fun qb => qb.2.comments.post_id.length)).sum)).sum

theorem postRowsZip_nil (subr qry : String) (l2 l3 : List String)
    (l4 : List (Option String)) (l5 : List Int) (l6 : List Rat)
    (l7 : List Int) : postRowsZip subr qry [] l2 l3 l4 l5 l6 l7 = [] := rfl

theorem postRowsZip_cons (subr qry : String) (pid t a : String)
    (f : Option String) (s : Int) (u : Rat) (d : Int) (l1 l2 l3 : List String)
    (l4 : List (Option String)) (l5 : List Int) (l6 : List Rat)
    (l7 : List Int) :
    postRowsZip subr qry (pid :: l1) (t :: l2) (a :: l3) (f :: l4) (s :: l5)
        (u :: l6) (d :: l7)
      = mkPostRow subr qry pid t a f s u d
          :: postRowsZip subr qry l1 l2 l3 l4 l5 l6 l7 := rfl

theorem commentRowsZip_nil (l2 l3 l4 : List String) (l5 l6 : List Int) :
    commentRowsZip [] l2 l3 l4 l5 l6 = [] := rfl

theorem commentRowsZip_cons (p i c a : String) (s d : Int)
    (l1 l2 l3 l4 : List String) (l5 l6 : List Int) :
    commentRowsZip (p :: l1) (i :: l2) (c :: l3) (a :: l4) (s :: l5) (d :: l6)
      = mkCommentRow p i c a s d :: commentRowsZip l1 l2 l3 l4 l5 l6 := rfl

theorem postRowsZip_length (subr qry : String) :
    ∀ (l1 l2 l3 : List String) (l4 : List (Option String)) (l5 : List Int)
      (l6 : List Rat) (l7 : List Int),
      l2.length = l1.length → l3.length = l1.length → l4.length = l1.length →
      l5.length = l1.length → l6.length = l1.length → l7.length = l1.length →
      (postRowsZip subr qry l1 l2 l3 l4 l5 l6 l7).length = l1.length := by
  intro l1
  induction l1 with
  | nil =>
      intro l2 l3 l4 l5 l6 l7 h2 h3 h4 h5 h6 h7
      rw [postRowsZip_nil]
      rfl
  | cons a l1 ih =>
      intro l2 l3 l4 l5 l6 l7 h2 h3 h4 h5 h6 h7
      cases l2 with
      | nil => simp at h2
      | cons x2 l2 =>
      cases l3 with
      | nil => simp at h3
      | cons x3 l3 =>
      cases l4 with
      | nil => simp at h4
      | cons x4 l4 =>
      cases l5 with
      | nil => simp at h5
      | cons x5 l5 =>
      cases l6 with
      | nil => simp at h6
      | cons x6 l6 =>
      cases l7 with
      | nil => simp at h7
      | cons x7 l7 =>
      simp only [List.length_cons] at h2 h3 h4 h5 h6 h7
      rw [postRowsZip_cons, List.length_cons, List.length_cons,
        ih l2 l3 l4 l5 l6 l7 (by omega) (by omega) (by omega) (by omega)
          (by omega) (by omega)]

theorem commentRowsZip_length :
    ∀ (l1 l2 l3 l4 : List String) (l5 : List Int) (l6 : List Int),
      l2.length = l1.length → l3.length = l1.length → l4.length = l1.length →
      l5.length = l1.length → l6.length = l1.length →
      (commentRowsZip l1 l2 l3 l4 l5 l6).length = l1.length := by
  intro l1
  induction l1 with
  | nil =>
      intro l2 l3 l4 l5 l6 h2 h3 h4 h5 h6
      rw [commentRowsZip_nil]
      rfl
  | cons a l1 ih =>
      intro l2 l3 l4 l5 l6 h2 h3 h4 h5 h6
      cases l2 with
      | nil => simp at h2
      | cons x2 l2 =>
      cases l3 with
      | nil => simp at h3
      | cons x3 l3 =>
      cases l4 with
      | nil => simp at h4
      | cons x4 l4 =>
      cases l5 with
      | nil => simp at h5
      | cons x5 l5 =>
      cases l6 with
      | nil => simp at h6
      | cons x6 l6 =>
      simp only [List.length_cons] at h2 h3 h4 h5 h6
      rw [commentRowsZip_cons, List.length_cons, List.length_cons,
        ih l2 l3 l4 l5 l6 (by omega) (by omega) (by omega) (by omega)
          (by omega)]

theorem bundlePostRows_length (subr qry : String) (b : PostBundle)
    (h : postLensOk b = true) :
    (bundlePostRows subr qry b).length = b.post_id.length := by
  simp only [postLensOk, Bool.and_eq_true, beq_iff_eq] at h
  obtain ⟨⟨⟨⟨⟨h1, h2⟩, h3⟩, h4⟩, h5⟩, h6⟩ := h
  exact postRowsZip_length subr qry _ _ _ _ _ _ _ h1 h2 h3 h4 h5 h6

theorem bundleCommentRows_length (c : CommentCols)
    (h : commentLensOk c = true) :
    (bundleCommentRows c).length = c.post_id.length := by
  simp only [commentLensOk, Bool.and_eq_true, beq_iff_eq] at h
  obtain ⟨⟨⟨⟨h1, h2⟩, h3⟩, h4⟩, h5⟩ := h
  exact commentRowsZip_length _ _ _ _ _ _ h1 h2 h3 h4 h5

theorem flattenInner_lengths (subr : String)
    (inner : List (String × PostBundle)) :
    ∀ (posts comments p c : Table),
      flattenInner subr inner posts comments = .ok (p, c) →
      p.length = posts.length + (inner.map (fun qb => qb.2.post_id.length)).sum ∧
      c.length = comments.length
        + (inner.map (fun qb => qb.2.comments.post_id.length)).sum := by
  induction inner with
  | nil =>
      intro posts comments p c h
      simp only [flattenInner, Except.ok.injEq, Prod.mk.injEq] at h
      obtain ⟨rfl, rfl⟩ := h
      simp
  | cons qb rest ih =>
      intro posts comments p c h
      obtain ⟨qry, b⟩ := qb
      by_cases hcl : commentLensOk b.comments
      · by_cases hpl : postLensOk b
        · simp only [flattenInner, hcl, hpl, Bool.not_true, if_false,
            Bool.false_eq_true] at h
          obtain ⟨h1, h2⟩ := ih _ _ _ _ h
          rw [List.length_append] at h1 h2
          rw [bundlePostRows_length subr qry b hpl] at h1
          rw [bundleCommentRows_length b.comments hcl] at h2
          simp only [List.map_cons, List.sum_cons]
          omega
        · simp [flattenInner, hcl, hpl] at h
      · simp [flattenInner, hcl] at h

theorem flattenStore_lengths :
    ∀ (store : Store) (posts comments p c : Table),
      flattenStore store posts comments = .ok (p, c) →
      p.length = posts.length + totalPosts store ∧
      c.length = comments.length + totalComments store := by
  intro store
  induction store with
  | nil =>
      intro posts comments p c h
      simp only [flattenStore, Except.ok.injEq, Prod.mk.injEq] at h
      obtain ⟨rfl, rfl⟩ := h
      simp [totalPosts, totalComments]
  | cons si rest ih =>
      intro posts comments p c h
      obtain ⟨subr, inner⟩ := si
      unfold flattenStore at h
      cases hfi : flattenInner subr inner posts comments with
      | error e => rw [hfi] at h; simp at h
      | ok pc0 =>
          obtain ⟨p0, c0⟩ := pc0
          rw [hfi] at h
          obtain ⟨h1, h2⟩ := ih p0 c0 p c h
          obtain ⟨g1, g2⟩ := flattenInner_lengths subr inner posts comments p0 c0 hfi
          constructor
          · simp only [totalPosts, List.map_cons, List.sum_cons] at h1 g1 ⊢
            omega
          · simp only [totalComments, List.map_cons, List.sum_cons] at h2 g2 ⊢
            omega

/-- C6: the flattened posts table has one row per post record of the store and
the flattened comments table one row per comment record. -/
theorem C6_row_counts (st : ScraperState) (ps cs : Table)
    (h : (semi_format_to_pandas st).2 = .ok (ps, cs)) :
    ps.length = totalPosts st.scraped_data ∧
    cs.length = totalComments st.scraped_data := by
  rw [semi_snd] at h
  unfold semiResult at h
  by_cases he : st.scraped_data.isEmpty
  · simp [he] at h
  · simp only [he, if_false] at h
    have := flattenStore_lengths st.scraped_data [] [] ps cs h
    simpa using this

/-- Witness for C6 at the concrete scraped state. -/
theorem C6_witness :
    ((semi_format_to_pandas exState).2.toOption.getD ([], [])).1.length
      = totalPosts exState.scraped_data ∧
    ((semi_format_to_pandas exState).2.toOption.getD ([], [])).2.length
      = totalComments exState.scraped_data :=
  C6_row_counts exState _ _ (by rfl)

/-! ### Shape of the flattened rows -/

/-- A row with exactly the nine posts-table columns in frame order. -/
def isPostRow (r : NamedRow) : Prop :=
  ∃ subr qry pid ttl auth flair sc ur dt,
    r = mkPostRow subr qry pid ttl auth flair sc ur dt

/-- A row with exactly the six comments-table columns in frame order. -/
def isCommentRow (r : NamedRow) : Prop :=
  ∃ pid cid body cauth csc cdt, r = mkCommentRow pid cid body cauth csc cdt

theorem rowKey_mkPostRow (subr qry pid ttl auth : String) (flair : Option String)
    (sc : Int) (ur : Rat) (dt : Int) :
    rowKey (mkPostRow subr qry pid ttl auth flair sc ur dt) = .vstr pid := rfl

theorem rowKey_mkCommentRow (pid cid body cauth : String) (csc cdt : Int) :
    rowKey (mkCommentRow pid cid body cauth csc cdt) = .vstr pid := rfl

theorem rowKey_postRow_append (subr qry pid ttl auth : String)
    (flair : Option String) (sc : Int) (ur : Rat) (dt : Int) (x : NamedRow) :
    rowKey (mkPostRow subr qry pid ttl auth flair sc ur dt ++ x) = .vstr pid := rfl

theorem drop9_postRow_append (subr qry pid ttl auth : String)
    (flair : Option String) (sc : Int) (ur : Rat) (dt : Int) (x : NamedRow) :
    (mkPostRow subr qry pid ttl auth flair sc ur dt ++ x).drop 9 = x := rfl

theorem rowKey_keyCons (k : Value) (x : NamedRow) :
    rowKey (("post_id", k) :: x) = k := rfl

theorem drop9_unmatched (k : Value) (x : NamedRow) :
    ((("post_id", k) :: (nullPostCells ++ x)) : NamedRow).drop 9 = x := rfl

theorem stripKey_mkCommentRow (pid cid body cauth : String) (csc cdt : Int) :
    stripKey (mkCommentRow pid cid body cauth csc cdt)
      = [("comment_id", .vstr cid), ("comment_content", .vstr body),
         ("comment_author", .vstr cauth), ("comment_score", .vint csc),
         ("comment_date", .vint cdt)] := rfl

theorem mem_postRowsZip (subr qry : String) :
    ∀ (l1 l2 l3 : List String) (l4 : List (Option String)) (l5 : List Int)
      (l6 : List Rat) (l7 : List Int) (r : NamedRow),
      r ∈ postRowsZip subr qry l1 l2 l3 l4 l5 l6 l7 → isPostRow r := by
  intro l1
  induction l1 with
  | nil =>
      intro l2 l3 l4 l5 l6 l7 r hr
      rw [postRowsZip_nil] at hr
      exact absurd hr (by simp)
  | cons a l1 ih =>
      intro l2 l3 l4 l5 l6 l7 r hr
      cases l2 with
      | nil => exact absurd (show r ∈ ([] : Table) from hr) (by simp)
      | cons x2 l2 =>
      cases l3 with
      | nil => exact absurd (show r ∈ ([] : Table) from hr) (by simp)
      | cons x3 l3 =>
      cases l4 with
      | nil => exact absurd (show r ∈ ([] : Table) from hr) (by simp)
      | cons x4 l4 =>
      cases l5 with
      | nil => exact absurd (show r ∈ ([] : Table) from hr) (by simp)
      | cons x5 l5 =>
      cases l6 with
      | nil => exact absurd (show r ∈ ([] : Table) from hr) (by simp)
      | cons x6 l6 =>
      cases l7 with
      | nil => exact absurd (show r ∈ ([] : Table) from hr) (by simp)
      | cons x7 l7 =>
      rw [postRowsZip_cons] at hr
      rcases List.mem_cons.mp hr with hr | hr
      · exact ⟨subr, qry, a, x2, x3, x4, x5, x6, x7, hr⟩
      · exact ih l2 l3 l4 l5 l6 l7 r hr

theorem mem_commentRowsZip :
    ∀ (l1 l2 l3 l4 : List String) (l5 l6 : List Int) (r : NamedRow),
      r ∈ commentRowsZip l1 l2 l3 l4 l5 l6 → isCommentRow r := by
  intro l1
  induction l1 with
  | nil =>
      intro l2 l3 l4 l5 l6 r hr
      rw [commentRowsZip_nil] at hr
      exact absurd hr (by simp)
  | cons a l1 ih =>
      intro l2 l3 l4 l5 l6 r hr
      cases l2 with
      | nil => exact absurd (show r ∈ ([] : Table) from hr) (by simp)
      | cons x2 l2 =>
      cases l3 with
      | nil => exact absurd (show r ∈ ([] : Table) from hr) (by simp)
      | cons x3 l3 =>
      cases l4 with
      | nil => exact absurd (show r ∈ ([] : Table) from hr) (by simp)
      | cons x4 l4 =>
      cases l5 with
      | nil => exact absurd (show r ∈ ([] : Table) from hr) (by simp)
      | cons x5 l5 =>
      cases l6 with
      | nil => exact absurd (show r ∈ ([] : Table) from hr) (by simp)
      | cons x6 l6 =>
      rw [commentRowsZip_cons] at hr
      rcases List.mem_cons.mp hr with hr | hr
      · exact ⟨a, x2, x3, x4, x5, x6, hr⟩
      · exact ih l2 l3 l4 l5 l6 r hr

theorem flattenInner_wf (subr : String) (inner : List (String × PostBundle)) :
    ∀ (posts comments p c : Table),
      flattenInner subr inner posts comments = .ok (p, c) →
      (∀ r ∈ p, r ∈ posts ∨ isPostRow r) ∧
      (∀ r ∈ c, r ∈ comments ∨ isCommentRow r) := by
  induction inner with
  | nil =>
      intro posts comments p c h
      simp only [flattenInner, Except.ok.injEq, Prod.mk.injEq] at h
      obtain ⟨rfl, rfl⟩ := h
      exact ⟨fun r hr => Or.inl hr, fun r hr => Or.inl hr⟩
  | cons qb rest ih =>
      intro posts comments p c h
      obtain ⟨qry, b⟩ := qb
      by_cases hcl : commentLensOk b.comments
      · by_cases hpl : postLensOk b
        · simp only [flattenInner, hcl, hpl, Bool.not_true, if_false,
            Bool.false_eq_true] at h
          obtain ⟨h1, h2⟩ := ih _ _ _ _ h
          constructor
          · intro r hr
            rcases h1 r hr with hmem | hshape
            · rcases List.mem_append.mp hmem with hmem | hmem
              · exact Or.inl hmem
              · exact Or.inr (mem_postRowsZip subr qry _ _ _ _ _ _ _ r hmem)
            · exact Or.inr hshape
          · intro r hr
            rcases h2 r hr with hmem | hshape
            · rcases List.mem_append.mp hmem with hmem | hmem
              · exact Or.inl hmem
              · exact Or.inr (mem_commentRowsZip _ _ _ _ _ _ r hmem)
            · exact Or.inr hshape
        · simp [flattenInner, hcl, hpl] at h
      · simp [flattenInner, hcl] at h

theorem flattenStore_wf :
    ∀ (store : Store) (posts comments p c : Table),
      flattenStore store posts comments = .ok (p, c) →
      (∀ r ∈ p, r ∈ posts ∨ isPostRow r) ∧
      (∀ r ∈ c, r ∈ comments ∨ isCommentRow r) := by
  intro store
  induction store with
  | nil =>
      intro posts comments p c h
      simp only [flattenStore, Except.ok.injEq, Prod.mk.injEq] at h
      obtain ⟨rfl, rfl⟩ := h
      exact ⟨fun r hr => Or.inl hr, fun r hr => Or.inl hr⟩
  | cons si rest ih =>
      intro posts comments p c h
      obtain ⟨subr, inner⟩ := si
      unfold flattenStore at h
      cases hfi : flattenInner subr inner posts comments with
      | error e => rw [hfi] at h; simp at h
      | ok pc0 =>
          obtain ⟨p0, c0⟩ := pc0
          rw [hfi] at h
          obtain ⟨h1, h2⟩ := ih p0 c0 p c h
          obtain ⟨g1, g2⟩ := flattenInner_wf subr inner posts comments p0 c0 hfi
          constructor
          · intro r hr
            rcases h1 r hr with hmem | hshape
            · exact g1 r hmem
            · exact Or.inr hshape
          · intro r hr
            rcases h2 r hr with hmem | hshape
            · exact g2 r hmem
            · exact Or.inr hshape

/-- Tables produced by a successful flatten consist of well-shaped rows. -/
theorem semi_ok_wf (st : ScraperState) (st1 : ScraperState) (ps cs : Table)
    (h : semi_format_to_pandas st = (st1, .ok (ps, cs))) :
    (∀ r ∈ ps, isPostRow r) ∧ ∀ r ∈ cs, isCommentRow r := by
  have h2 : (semi_format_to_pandas st).2 = .ok (ps, cs) := by rw [h]
  rw [semi_snd] at h2
  unfold semiResult at h2
  by_cases he : st.scraped_data.isEmpty
  · simp [he] at h2
  · simp only [he, if_false] at h2
    obtain ⟨g1, g2⟩ := flattenStore_wf st.scraped_data [] [] ps cs h2
    constructor
    · intro r hr
      rcases g1 r hr with hmem | hshape
      · exact absurd hmem (by simp)
      · exact hshape
    · intro r hr
      rcases g2 r hr with hmem | hshape
      · exact absurd hmem (by simp)
      · exact hshape

/-! ### The right-merge, row by row -/

/-- The joined rows one comment row contributes: its left matches in left
order, or a single NaN-padded row when no post shares its key. -/
def rowsFor (ps : Table) (c : NamedRow) : Table :=
  let ms := ps.filter (fun p => decide (rowKey p = rowKey c))
  match ms with
  | [] => [("post_id", rowKey c) :: (nullPostCells ++ stripKey c)]
  | _ => ms.map (fun p => p ++ stripKey c)

theorem mergeRightOn_eq_flatMap (ps cs : Table) :
    mergeRightOn ps cs = cs.flatMap (rowsFor ps) := rfl

theorem rowsFor_nilcase (ps : Table) (c : NamedRow)
    (hms : ps.filter (fun p => decide (rowKey p = rowKey c)) = []) :
    rowsFor ps c = [("post_id", rowKey c) :: (nullPostCells ++ stripKey c)] := by
  simp only [rowsFor, hms]

theorem rowsFor_conscase (ps : Table) (c p0 : NamedRow) (ms : Table)
    (hms : ps.filter (fun p => decide (rowKey p = rowKey c)) = p0 :: ms) :
    rowsFor ps c = (p0 :: ms).map (fun p => p ++ stripKey c) := by
  simp only [rowsFor, hms]

theorem mem_rowsFor (ps : Table) (c r : NamedRow) :
    r ∈ rowsFor ps c ↔
      (∃ p ∈ ps, rowKey p = rowKey c ∧ r = p ++ stripKey c) ∨
      ((∀ p ∈ ps, rowKey p ≠ rowKey c) ∧
        r = ("post_id", rowKey c) :: (nullPostCells ++ stripKey c)) := by
  rcases hms : ps.filter (fun p => decide (rowKey p = rowKey c)) with _ | ⟨p0, ms⟩
  · rw [rowsFor_nilcase ps c hms]
    have hall : ∀ p ∈ ps, rowKey p ≠ rowKey c := by
      intro p hp
      have := List.filter_eq_nil_iff.mp hms p hp
      simpa using this
    simp only [List.mem_singleton]
    constructor
    · intro hr
      exact Or.inr ⟨hall, hr⟩
    · rintro (⟨p, hp, hkey, _⟩ | ⟨_, hr⟩)
      · exact absurd hkey (hall p hp)
      · exact hr
  · rw [rowsFor_conscase ps c p0 ms hms]
    constructor
    · intro hr
      obtain ⟨p, hpmem, rfl⟩ := List.mem_map.mp hr
      have hp : p ∈ ps.filter (fun p => decide (rowKey p = rowKey c)) := by
        rw [hms]; exact hpmem
      obtain ⟨hp1, hp2⟩ := List.mem_filter.mp hp
      exact Or.inl ⟨p, hp1, by simpa using hp2, rfl⟩
    · rintro (⟨p, hp, hkey, rfl⟩ | ⟨hall, _⟩)
      · have hp' : p ∈ ps.filter (fun p => decide (rowKey p = rowKey c)) :=
          List.mem_filter.mpr ⟨hp, by simpa using hkey⟩
        rw [hms] at hp'
        exact List.mem_map.mpr ⟨p, hp', rfl⟩
      · have hp0 : p0 ∈ ps.filter (fun p => decide (rowKey p = rowKey c)) := by
          rw [hms]; simp
        obtain ⟨hp1, hp2⟩ := List.mem_filter.mp hp0
        exact absurd (by simpa using hp2) (hall p0 hp1)

theorem exists_row_rowsFor (ps : Table) (c : NamedRow)
    (hps : ∀ p ∈ ps, isPostRow p) :
    ∃ r ∈ rowsFor ps c, rowKey r = rowKey c ∧ r.drop 9 = stripKey c := by
  rcases hms : ps.filter (fun p => decide (rowKey p = rowKey c)) with _ | ⟨p0, ms⟩
  · refine ⟨_, by rw [rowsFor_nilcase ps c hms]; simp, rowKey_keyCons _ _,
      drop9_unmatched _ _⟩
  · have hp0 : p0 ∈ ps.filter (fun p => decide (rowKey p = rowKey c)) := by
      rw [hms]; simp
    obtain ⟨hp1, hp2⟩ := List.mem_filter.mp hp0
    obtain ⟨subr, qry, pid, ttl, auth, flair, sc, ur, dt, rfl⟩ := hps p0 hp1
    refine ⟨mkPostRow subr qry pid ttl auth flair sc ur dt ++ stripKey c, ?_, ?_, ?_⟩
    · rw [rowsFor_conscase ps c _ ms hms]
      exact List.mem_map.mpr ⟨_, by simp, rfl⟩
    · rw [rowKey_postRow_append]
      have hk := of_decide_eq_true hp2
      rwa [rowKey_mkPostRow] at hk
    · exact drop9_postRow_append subr qry pid ttl auth flair sc ur dt _

theorem rowKey_of_mem_rowsFor (ps : Table) (c r : NamedRow)
    (hps : ∀ p ∈ ps, isPostRow p) (hr : r ∈ rowsFor ps c) :
    rowKey r = rowKey c := by
  rcases (mem_rowsFor ps c r).mp hr with ⟨p, hp, hkey, rfl⟩ | ⟨_, rfl⟩
  · obtain ⟨subr, qry, pid, ttl, auth, flair, sc, ur, dt, rfl⟩ := hps p hp
    rw [rowKey_postRow_append]
    rwa [rowKey_mkPostRow] at hkey
  · exact rowKey_keyCons _ _

theorem nulls_of_unmatched (ps : Table) (c r : NamedRow)
    (hps : ∀ p ∈ ps, isPostRow p) (hr : r ∈ rowsFor ps c)
    (hnm : rowKey r ∉ ps.map rowKey) : (r.drop 1).take 8 = nullPostCells := by
  rcases (mem_rowsFor ps c r).mp hr with ⟨p, hp, hkey, rfl⟩ | ⟨_, rfl⟩
  · exfalso
    apply hnm
    obtain ⟨subr, qry, pid, ttl, auth, flair, sc, ur, dt, rfl⟩ := hps p hp
    rw [rowKey_postRow_append]
    exact List.mem_map.mpr ⟨_, hp, rowKey_mkPostRow subr qry pid ttl auth flair sc ur dt⟩
  · show ((nullPostCells ++ stripKey c).take 8) = nullPostCells
    have h8 : nullPostCells.length = 8 := rfl
    rw [← h8, List.take_left]

theorem filter_key_len_le_one (ps : Table) (hnd : (ps.map rowKey).Nodup)
    (k : Value) :
    (ps.filter (fun p => decide (rowKey p = k))).length ≤ 1 := by
  induction ps with
  | nil => simp
  | cons p ps ih =>
      simp only [List.map_cons, List.nodup_cons] at hnd
      obtain ⟨hnmem, hnd'⟩ := hnd
      rw [List.filter_cons]
      by_cases hk : rowKey p = k
      · have hrest : ps.filter (fun q => decide (rowKey q = k)) = [] := by
          apply List.filter_eq_nil_iff.mpr
          intro q hq
          simp only [decide_eq_true_eq]
          intro he
          exact hnmem (List.mem_map.mpr ⟨q, hq, by rw [he, hk]⟩)
        simp [hk, hrest]
      · simpa [hk] using ih hnd'

theorem rowsFor_map_eq (ps : Table) (c : NamedRow)
    (hps : ∀ p ∈ ps, isPostRow p) (hc : isCommentRow c)
    (hnd : (ps.map rowKey).Nodup) :
    (rowsFor ps c).map (fun r => ("post_id", rowKey r) :: r.drop 9) = [c] := by
  obtain ⟨pid, cid, body, cauth, csc, cdt, rfl⟩ := hc
  rcases hms : ps.filter (fun p =>
      decide (rowKey p = rowKey (mkCommentRow pid cid body cauth csc cdt)))
      with _ | ⟨p0, ms⟩
  · rw [rowsFor_nilcase _ _ hms]
    simp only [List.map_cons, List.map_nil]
    rw [rowKey_keyCons, drop9_unmatched, rowKey_mkCommentRow, stripKey_mkCommentRow]
    rfl
  · have hlen := filter_key_len_le_one ps hnd
      (rowKey (mkCommentRow pid cid body cauth csc cdt))
    rw [hms] at hlen
    simp only [List.length_cons] at hlen
    have hms0 : ms = [] := List.length_eq_zero.mp (by omega)
    subst hms0
    rw [rowsFor_conscase _ _ _ _ hms]
    have hp0 : p0 ∈ ps.filter (fun p =>
        decide (rowKey p = rowKey (mkCommentRow pid cid body cauth csc cdt))) := by
      rw [hms]; simp
    obtain ⟨hp1, hp2⟩ := List.mem_filter.mp hp0
    obtain ⟨subr, qry, pid0, ttl, auth, flair, sc, ur, dt, rfl⟩ := hps p0 hp1
    simp only [List.map_cons, List.map_nil]
    rw [rowKey_postRow_append, drop9_postRow_append, stripKey_mkCommentRow]
    have hkk := of_decide_eq_true hp2
    rw [rowKey_mkPostRow, rowKey_mkCommentRow] at hkk
    rw [hkk]
    rfl

theorem mergeRightOn_map_eq (ps cs : Table)
    (hps : ∀ p ∈ ps, isPostRow p) (hcs : ∀ c ∈ cs, isCommentRow c)
    (hnd : (ps.map rowKey).Nodup) :
    (mergeRightOn ps cs).map (fun r => ("post_id", rowKey r) :: r.drop 9) = cs := by
  induction cs with
  | nil => rfl
  | cons c cs ih =>
      rw [mergeRightOn_eq_flatMap, List.flatMap_cons, List.map_append,
        ← mergeRightOn_eq_flatMap, ih (fun c hc => hcs c (List.mem_cons_of_mem _ hc)),
        rowsFor_map_eq ps c hps (hcs c (by simp)) hnd]
      rfl

/-- A successful full format joins exactly the two flattened tables. -/
theorem full_ok_merge (st st1 st2 : ScraperState) (ps cs jd : Table)
    (hsemi : semi_format_to_pandas st = (st1, .ok (ps, cs)))
    (hfull : full_format_to_pandas st = (st2, .ok jd)) :
    jd = mergeRightOn ps cs := by
  unfold full_format_to_pandas at hfull
  rw [hsemi] at hfull
  have := congrArg Prod.snd hfull
  simp only [Except.ok.injEq] at this
  exact this.symm

/-- C1 (amended): the join keyed on `post_id` and anchored on the comments
table never drops a comment (an unmatched one gets NaN post-attribute cells),
only comment keys ever reach the joined table (a post with zero comments
contributes nothing), and when the posts table's `post_id` values are
pairwise distinct every comment row appears exactly once, in comment-table
order.  (Without that distinctness a comment matching a duplicated post id is
multiplied, so "exactly once" needs the extra hypothesis.) -/
theorem C1_right_join_amended (st st1 st2 : ScraperState) (ps cs jd : Table)
    (hsemi : semi_format_to_pandas st = (st1, .ok (ps, cs)))
    (hfull : full_format_to_pandas st = (st2, .ok jd)) :
    (∀ c ∈ cs, ∃ r ∈ jd, rowKey r = rowKey c ∧ r.drop 9 = stripKey c) ∧
    (∀ r ∈ jd, rowKey r ∉ ps.map rowKey → (r.drop 1).take 8 = nullPostCells) ∧
    (∀ r ∈ jd, rowKey r ∈ cs.map rowKey) ∧
    ((ps.map rowKey).Nodup →
      jd.length = cs.length ∧
      jd.map (fun r => ("post_id", rowKey r) :: r.drop 9) = cs) := by
  obtain ⟨hps, hcs⟩ := semi_ok_wf st st1 ps cs hsemi
  have hjd : jd = mergeRightOn ps cs := full_ok_merge st st1 st2 ps cs jd hsemi hfull
  subst hjd
  refine ⟨?_, ?_, ?_, ?_⟩
  · intro c hc
    obtain ⟨r, hr, h1, h2⟩ := exists_row_rowsFor ps c hps
    exact ⟨r, by rw [mergeRightOn_eq_flatMap]; exact List.mem_flatMap.mpr ⟨c, hc, hr⟩,
      h1, h2⟩
  · intro r hr hnm
    rw [mergeRightOn_eq_flatMap] at hr
    obtain ⟨c, hc, hrc⟩ := List.mem_flatMap.mp hr
    exact nulls_of_unmatched ps c r hps hrc hnm
  · intro r hr
    rw [mergeRightOn_eq_flatMap] at hr
    obtain ⟨c, hc, hrc⟩ := List.mem_flatMap.mp hr
    exact List.mem_map.mpr ⟨c, hc, (rowKey_of_mem_rowsFor ps c r hps hrc).symm⟩
  · intro hnd
    have hmap := mergeRightOn_map_eq ps cs hps hcs hnd
    refine ⟨?_, hmap⟩
    have := congrArg List.length hmap
    simpa using this

/-- The object state after scraping only `("s", "q1")` (no duplicate posts). -/
def exStateS : ScraperState :=
  (scrape_subreddit initState exFetch "s" "q1" 50 "top" "all" true 10).1

/-- Witness for the amended C1 at the single-bundle state. -/
theorem C1_witness :
    (∀ c ∈ ((semi_format_to_pandas exStateS).2.toOption.getD ([], [])).2,
      ∃ r ∈ (full_format_to_pandas exStateS).2.toOption.getD [],
        rowKey r = rowKey c ∧ r.drop 9 = stripKey c) ∧
    (∀ r ∈ (full_format_to_pandas exStateS).2.toOption.getD [],
      rowKey r ∉ (((semi_format_to_pandas exStateS).2.toOption.getD ([], [])).1).map rowKey →
      (r.drop 1).take 8 = nullPostCells) ∧
    (∀ r ∈ (full_format_to_pandas exStateS).2.toOption.getD [],
      rowKey r ∈ (((semi_format_to_pandas exStateS).2.toOption.getD ([], [])).2).map rowKey) ∧
    (((((semi_format_to_pandas exStateS).2.toOption.getD ([], [])).1).map rowKey).Nodup →
      ((full_format_to_pandas exStateS).2.toOption.getD []).length
        = (((semi_format_to_pandas exStateS).2.toOption.getD ([], [])).2).length ∧
      ((full_format_to_pandas exStateS).2.toOption.getD []).map
          (fun r => ("post_id", rowKey r) :: r.drop 9)
        = ((semi_format_to_pandas exStateS).2.toOption.getD ([], [])).2) :=
  C1_right_join_amended exStateS (semi_format_to_pandas exStateS).1
    (full_format_to_pandas exStateS).1 _ _ _ (by rfl) (by rfl)

/-- C1 counterexample to the claim as stated: after scraping the two
overlapping queries of `exFetch`, the comments table has a single row (the
one comment `c1`) but the joined table has two rows, both carrying `c1` —
the comment is preserved twice, not exactly once, because its `post_id`
matches the post record of both bundles. -/
theorem C1_counterexample :
    ∃ st1 st2 ps cs jd,
      semi_format_to_pandas exState = (st1, Except.ok (ps, cs)) ∧
      full_format_to_pandas exState = (st2, Except.ok jd) ∧
      cs.length = 1 ∧ jd.length = 2 ∧
      jd.map (fun r => getCol r "comment_id") = [.vstr "c1", .vstr "c1"] := by
  refine ⟨_, _, _, _, _, rfl, rfl, ?_, ?_, ?_⟩ <;> rfl

/-! ### Graph derivation -/

/-- The fourteen columns of every joined-table row, in frame order. -/
def joinedCols : List String :=
  ["post_id", "title", "author", "author_flair", "score", "upvote_ratio",
   "post_date", "subreddit", "search_query", "comment_id", "comment_content",
   "comment_author", "comment_score", "comment_date"]

theorem renameSourceTarget_cons (k : String) (v : Value) (r : NamedRow) :
    renameSourceTarget ((k, v) :: r)
      = (if k = "comment_author" then "source"
         else if k = "author" then "target" else k, v)
          :: renameSourceTarget r := rfl

theorem findAssoc_rename_source (r : NamedRow)
    (h : "source" ∉ r.map Prod.fst) :
    findAssoc (renameSourceTarget r) "source" = findAssoc r "comment_author" := by
  induction r with
  | nil => rfl
  | cons kv r ih =>
      obtain ⟨k, v⟩ := kv
      simp only [List.map_cons, List.mem_cons, not_or] at h
      obtain ⟨hk, hrest⟩ := h
      rw [renameSourceTarget_cons]
      by_cases h1 : k = "comment_author"
      · subst h1
        simp [findAssoc]
      · by_cases h2 : k = "author"
        · subst h2
          simp [findAssoc, ih hrest]
        · simp [findAssoc, h1, h2, ih hrest, Ne.symm hk]

theorem findAssoc_rename_target (r : NamedRow)
    (h : "target" ∉ r.map Prod.fst) :
    findAssoc (renameSourceTarget r) "target" = findAssoc r "author" := by
  induction r with
  | nil => rfl
  | cons kv r ih =>
      obtain ⟨k, v⟩ := kv
      simp only [List.map_cons, List.mem_cons, not_or] at h
      obtain ⟨hk, hrest⟩ := h
      rw [renameSourceTarget_cons]
      by_cases h1 : k = "comment_author"
      · subst h1
        simp [findAssoc, ih hrest]
      · by_cases h2 : k = "author"
        · subst h2
          simp [findAssoc]
        · simp [findAssoc, h1, h2, ih hrest, Ne.symm hk]

theorem zip_self_map {α β : Type} (l : List α) (f : α → β) :
    l.zip (l.map f) = l.map (fun a => (a, f a)) := by
  induction l with
  | nil => rfl
  | cons a l ih => simp [ih]

/-- C9: the edge table is the joined table row for row, with the
`comment_author` column renamed to `source` and `author` to `target`, all
cell values carried through unchanged; a row whose comment author equals the
post author yields an edge with `source = target` (self-loops survive). -/
theorem C9_edges_rename (st : ScraperState) (jd nodes edges : Table)
    (hjd : st.joined_data_df = some jd)
    (hwf : ∀ r ∈ jd, r.map Prod.fst = joinedCols)
    (hc : (create_nodes_and_edges st).2 = .ok (nodes, edges)) :
    edges.length = jd.length ∧
    (∀ e ∈ edges, e.map Prod.fst
      = ["post_id", "title", "target", "author_flair", "score", "upvote_ratio",
         "post_date", "subreddit", "search_query", "comment_id",
         "comment_content", "source", "comment_score", "comment_date"]) ∧
    edges.map (List.map Prod.snd) = jd.map (List.map Prod.snd) ∧
    (∀ pr ∈ jd.zip edges,
      getCol pr.1 "comment_author" = getCol pr.1 "author" →
      getCol pr.2 "source" = getCol pr.2 "target") := by
  have hedges : edges = jd.map renameSourceTarget := by
    unfold create_nodes_and_edges at hc
    rw [hjd] at hc
    have hpair : nodesEdgesOf jd = (nodes, edges) := by simpa using hc
    have h2 := congrArg Prod.snd hpair
    simpa [nodesEdgesOf] using h2.symm
  subst hedges
  refine ⟨by simp, ?_, ?_, ?_⟩
  · intro e he
    obtain ⟨r, hr, rfl⟩ := List.mem_map.mp he
    have hstep : (renameSourceTarget r).map Prod.fst
        = (r.map Prod.fst).map (fun c =>
            if c = "comment_author" then "source"
            else if c = "author" then "target" else c) := by
      simp only [renameSourceTarget, List.map_map]
      rfl
    rw [hstep, hwf r hr]
    rfl
  · rw [List.map_map]
    apply List.map_congr_left
    intro r _
    simp only [Function.comp_apply, renameSourceTarget, List.map_map]
    rfl
  · intro pr hpr hsame
    rw [zip_self_map] at hpr
    obtain ⟨r, hr, rfl⟩ := List.mem_map.mp hpr
    have hns : "source" ∉ r.map Prod.fst := by
      rw [hwf r hr]; decide
    have hnt : "target" ∉ r.map Prod.fst := by
      rw [hwf r hr]; decide
    unfold getCol at hsame ⊢
    rw [findAssoc_rename_source r hns, findAssoc_rename_target r hnt, hsame]

/-- Witness for C9 at the single-bundle pipeline state. -/
theorem C9_witness :
    (((create_nodes_and_edges (full_format_to_pandas exStateS).1).2.toOption.getD
        ([], [])).2).length
      = ((full_format_to_pandas exStateS).1.joined_data_df.getD []).length ∧
    (∀ e ∈ ((create_nodes_and_edges (full_format_to_pandas exStateS).1).2.toOption.getD
        ([], [])).2, e.map Prod.fst
      = ["post_id", "title", "target", "author_flair", "score", "upvote_ratio",
         "post_date", "subreddit", "search_query", "comment_id",
         "comment_content", "source", "comment_score", "comment_date"]) ∧
    (((create_nodes_and_edges (full_format_to_pandas exStateS).1).2.toOption.getD
        ([], [])).2).map (List.map Prod.snd)
      = ((full_format_to_pandas exStateS).1.joined_data_df.getD []).map
          (List.map Prod.snd) ∧
    (∀ pr ∈ ((full_format_to_pandas exStateS).1.joined_data_df.getD []).zip
        (((create_nodes_and_edges (full_format_to_pandas exStateS).1).2.toOption.getD
          ([], [])).2),
      getCol pr.1 "comment_author" = getCol pr.1 "author" →
      getCol pr.2 "source" = getCol pr.2 "target") :=
  C9_edges_rename (full_format_to_pandas exStateS).1
    ((full_format_to_pandas exStateS).1.joined_data_df.getD []) _ _
    (by rfl) (by decide) (by rfl)

/-- C10: deriving nodes and edges leaves the object state, in particular the
stored joined table with its original `author` / `comment_author` columns and
contents, completely unchanged (the rename happens on a deep copy). -/
theorem C10_create_preserves_joined (st : ScraperState) (jd : Table)
    (hjd : st.joined_data_df = some jd) :
    (create_nodes_and_edges st).1 = st ∧
    (create_nodes_and_edges st).1.joined_data_df = some jd := by
  unfold create_nodes_and_edges
  rw [hjd]
  exact ⟨rfl, hjd⟩

/-- Witness for C10 at the single-bundle pipeline state. -/
theorem C10_witness :
    (create_nodes_and_edges (full_format_to_pandas exStateS).1).1
      = (full_format_to_pandas exStateS).1 ∧
    (create_nodes_and_edges (full_format_to_pandas exStateS).1).1.joined_data_df
      = some ((full_format_to_pandas exStateS).1.joined_data_df.getD []) :=
  C10_create_preserves_joined (full_format_to_pandas exStateS).1
    ((full_format_to_pandas exStateS).1.joined_data_df.getD []) (by rfl)
